import Mathlib

/-!
# Verification of the furby-embedded voice-interaction controller

A shallow embedding of the core modules of the repository, translated from
the Python sources:

* `servo_controller.py`  — servo position tracking and mouth animation;
* `wake_word_detector.py` — audio adaptation for the decoder, wake-phrase
  confidence scoring, cooldown-gated detection;
* `alsa_audio_manager.py` / `shared_audio_manager.py` — the audio stream
  arbiters (stream open/close state machines);
* `audio_manager.py` — VAD-end-pointed recording (`record_with_vad`);
* `backend_client.py` — retrying backend call with canned fallback;
* `furby_server.py` — the wake-word session handler (`handle_wake_word`).

Machine floats that only feed threshold comparisons and position arithmetic
are modelled over `ℚ`/`ℤ` with the exact comparisons the code performs
(energy comparisons are stated in squared form, equivalent for the
nonnegative thresholds the code uses).  Wall-clock times (`time.time()`
values observed by a loop iteration) are inputs: each loop event carries the
time at which the iteration runs.  Collaborator calls that the code wraps in
catch-all handlers (and that therefore cannot raise into the modelled code)
appear as total inputs; operations whose outcome depends on the environment
(device open succeeding, the result of an HTTP attempt) take that outcome as an
explicit argument.
-/

/- The Batteries rational arithmetic definitions are sealed; reopening them
lets `decide` evaluate the embedded functions on concrete inputs. -/
unseal Rat.add Rat.sub Rat.mul Rat.inv

namespace Furby

/-! ## Python string helpers

`str.lower`, `str.strip`, `str.split()` (no argument: split on whitespace
runs, discarding empties), substring containment (`needle in hay`), as used
by `wake_word_detector.py`. -/

/-- Python `str.lower()` (ASCII, as produced by the decoder). -/
def py_lower (s : String) : String :=
  ⟨s.data.map Char.toLower⟩

/-- Python `str.upper()`. -/
def py_upper (s : String) : String :=
  ⟨s.data.map Char.toUpper⟩

/-- Python `str.strip()`: drop leading and trailing whitespace. -/
def py_strip (s : String) : String :=
  ⟨((s.data.dropWhile Char.isWhitespace).reverse.dropWhile Char.isWhitespace).reverse⟩

/-- Helper for `py_split`: accumulate the current word (reversed). -/
def py_split_chars : List Char → List Char → List (List Char)
  | [], [] => []
  | [], cur => [cur.reverse]
  | c :: rest, cur =>
    if c.isWhitespace then
      if cur = [] then py_split_chars rest []
      else cur.reverse :: py_split_chars rest []
    else py_split_chars rest (c :: cur)

/-- Python `str.split()` with no argument: words separated by whitespace
runs, with no empty words. -/
def py_split (s : String) : List String :=
  (py_split_chars s.data []).map (fun w => ⟨w⟩)

/-- Is `needle` a prefix of `hay`? -/
def chars_start_with : List Char → List Char → Bool
  | [], _ => true
  | _ :: _, [] => false
  | a :: as, b :: bs => a == b && chars_start_with as bs

/-- Python `needle in hay` on strings: substring containment. -/
def chars_contain_sub (needle : List Char) : List Char → Bool
  | [] => chars_start_with needle []
  | c :: t => chars_start_with needle (c :: t) || chars_contain_sub needle t

/-- Python `needle in hay` lifted to `String`. -/
def str_has_sub (hay needle : String) : Bool :=
  chars_contain_sub needle.data hay.data

/-! ## Servo controller (`servo_controller.py`) -/

/-- The configuration fields `move_to_position` / the animations read. -/
structure ServoConfig where
  closed_position : ℤ
  min_pulse : ℤ
  max_pulse : ℤ
  deriving DecidableEq

/-- The mutable state of the servo controller: whether the physical actuator is
driven (`is_active and self.pi`) and the tracked last commanded position. -/
structure ServoState where
  is_active : Bool
  current_position : ℤ
  deriving DecidableEq

/-- `move_to_position`: clamp to `[0, 180]` and update the tracked position.
The physical command (or mock log) has no effect on the tracked state; the
call is total whether or not the actuator is available. -/
def move_to_position (st : ServoState) (position : ℤ) : ServoState :=
  { st with current_position := max 0 (min 180 position) }

/-- The pulse width `move_to_position` would command when the actuator is
active: linear interpolation between the configured pulse bounds. -/
def servo_pulse_width (cfg : ServoConfig) (position : ℤ) : ℚ :=
  (cfg.min_pulse : ℚ) +
    ((max 0 (min 180 position) : ℤ) : ℚ) / 180 * ((cfg.max_pulse : ℚ) - (cfg.min_pulse : ℚ))

/-- One phoneme event consumed by `animate_mouth`. -/
structure Phoneme where
  phoneme : String
  duration : ℚ
  deriving DecidableEq

/-- The fixed symbol→position lookup table of `phoneme_to_position`. -/
def phoneme_map : List (String × ℤ) :=
  [("AA", 70), ("AE", 65), ("AH", 60), ("AO", 75), ("AW", 80), ("AY", 70),
   ("EH", 55), ("ER", 60), ("EY", 50), ("IH", 45), ("IY", 40), ("OW", 85),
   ("OY", 80), ("UH", 70), ("UW", 90), ("B", 90), ("CH", 60), ("D", 50),
   ("DH", 45), ("F", 75), ("G", 70), ("HH", 55), ("JH", 65), ("K", 80),
   ("L", 50), ("M", 90), ("N", 55), ("NG", 60), ("P", 90), ("R", 65),
   ("S", 45), ("SH", 55), ("T", 50), ("TH", 45), ("V", 70), ("W", 85),
   ("Y", 50), ("Z", 50), ("ZH", 60)]

/-- `phoneme_to_position`: table lookup on the upper-cased symbol, with the
configured closed position as the default for unrecognized symbols. -/
def phoneme_to_position (cfg : ServoConfig) (ph : String) : ℤ :=
  match phoneme_map.lookup (py_upper ph) with
  | some p => p
  | none => cfg.closed_position

/-- The canned position sequence of the default talking animation. -/
def default_mouth_positions : List ℤ := [45, 90, 60, 80, 50, 70, 90]

/-- Result of an animation call: the tracked servo state afterwards and
whether an exception escaped (the state mutation survives the exception). -/
structure AnimateOutcome where
  state : ServoState
  raised : Bool
  deriving DecidableEq

/-- The phoneme loop of `animate_mouth`: for each event, move to the
position for its symbol and then `time.sleep(duration)`; `time.sleep`
raises `ValueError` on a negative duration, aborting the loop after the
move has already been commanded. -/
def animate_phoneme_steps (cfg : ServoConfig) : List Phoneme → ServoState → AnimateOutcome
  | [], st => ⟨st, false⟩
  | p :: ps, st =>
    let st1 := move_to_position st (phoneme_to_position cfg p.phoneme)
    if p.duration < 0 then ⟨st1, true⟩
    else animate_phoneme_steps cfg ps st1

/-- `animate_mouth`: step through the phoneme-derived positions (Python
truthiness: `None` and the empty list both select the default animation,
whose fixed `time.sleep(0.2)` cannot raise), then return to the configured
closed position — unless a `time.sleep` in the phoneme loop raised, in
which case the closing move never runs. -/
def animate_mouth (cfg : ServoConfig) (st : ServoState) (phonemes : Option (List Phoneme)) :
    AnimateOutcome :=
  match phonemes with
  | some (p :: ps) =>
    let r := animate_phoneme_steps cfg (p :: ps) st
    if r.raised then r
    else ⟨move_to_position r.state cfg.closed_position, false⟩
  | _ =>
    ⟨move_to_position (default_mouth_positions.foldl move_to_position st) cfg.closed_position,
     false⟩

/-- The fixed emotion→positions table of `express_emotion`. -/
def emotion_map : List (String × List ℤ) :=
  [("happy", [30, 60, 40, 70, 45]), ("sad", [90, 75, 85, 70, 90]),
   ("excited", [20, 80, 30, 90, 25, 85]), ("sleepy", [85, 90, 88, 92, 90])]

/-- `express_emotion`: step through the looked-up sequence (default
`[90, 60, 90]` for unknown names), then return to the closed position.
Its per-step delay is the constant `time.sleep(0.3)`, which cannot raise,
so the call always completes. -/
def express_emotion (cfg : ServoConfig) (st : ServoState) (emotion : String) : ServoState :=
  let positions :=
    match emotion_map.lookup emotion with
    | some ps => ps
    | none => [90, 60, 90]
  move_to_position (positions.foldl move_to_position st) cfg.closed_position

/-! ## Wake-word detector (`wake_word_detector.py`) -/

/-- Split `l` into consecutive channel pairs, as numpy `reshape(-1, 2)` does
for an even-length array (the caller trims to even length first). -/
def to_pairs : List ℤ → List (ℤ × ℤ)
  | [] => []
  | [_] => []
  | a :: b :: rest => (a, b) :: to_pairs rest

/-- numpy slicing `[::3]`: keep indices 0, 3, 6, … -/
def every_third : List ℤ → List ℤ
  | [] => []
  | [a] => [a]
  | [a, _] => [a]
  | a :: _ :: _ :: rest => a :: every_third rest

/-- `_process_audio_for_vosk`: interpret the raw frame as interleaved 16-bit
stereo samples; if the sample count is odd, drop the trailing sample; average
the two channels (numpy float mean then `astype(np.int16)`, which truncates
toward zero, hence `Int.tdiv`); decimate by keeping every 3rd sample, but
only when at least 3 mono samples exist. -/
def process_audio_for_vosk (samples : List ℤ) : List ℤ :=
  if samples = [] then []
  else
    let trimmed := if samples.length % 2 ≠ 0 then samples.dropLast else samples
    let mono := (to_pairs trimmed).map (fun p => (p.1 + p.2).tdiv 2)
    if 3 ≤ mono.length then every_third mono else mono

/-- The configuration fields `_check_wake_word` reads.  `wake_words` is
already lower-cased and stripped (done once in `__init__`). -/
structure DetectorConfig where
  wake_words : List String
  wake_word_cooldown : ℚ
  wake_word_confidence : ℚ
  deriving DecidableEq

/-- The detector flags consulted by `_check_wake_word` and
`pause_listening`, plus the last accepted detection time. -/
structure DetectorState where
  is_listening : Bool
  is_paused : Bool
  last_detection : ℚ
  deriving DecidableEq

/-- `pause_listening`: set `is_paused` only while listening. -/
def pause_listening (st : DetectorState) : DetectorState :=
  if st.is_listening then { st with is_paused := true } else st

/-- `resume_listening`: clear `is_paused` only when listening and paused. -/
def resume_listening (st : DetectorState) : DetectorState :=
  if st.is_listening && st.is_paused then { st with is_paused := false } else st

/-- `_calculate_confidence`: `1.0` on an exact string match, otherwise the
fraction of the words of the wake word present in the text (`0.0` for a wake word
with no words). -/
def calculate_confidence (text wake_word : String) : ℚ :=
  if wake_word = text then 1
  else
    let words_in_text := py_split text
    let words_in_wake := py_split wake_word
    if words_in_wake = [] then 0
    else
      ((words_in_wake.filter (fun w => words_in_text.contains w)).length : ℚ) /
        (words_in_wake.length : ℚ)

/-- The wake-word scan of `_check_wake_word`: the first configured word that
is a substring of the text and whose confidence is at least the threshold
(a substring match with too-low confidence moves on to the next word). -/
def find_accepted_wake_word (cfg : DetectorConfig) (text : String) :
    List String → Option String
  | [] => none
  | w :: ws =>
    if str_has_sub text w then
      if cfg.wake_word_confidence ≤ calculate_confidence text w then some w
      else find_accepted_wake_word cfg text ws
    else find_accepted_wake_word cfg text ws

/-- Result of one `_check_wake_word` call: the new detector state and
whether the registered callback was invoked. -/
structure CheckResult where
  state : DetectorState
  fired : Bool
  deriving DecidableEq

/-- `_check_wake_word` at time `now`: ignore empty text and ignore
everything while paused; lower-case and strip; reject inside the cooldown
window; otherwise scan the configured words, and on the first accepted one
record the detection time, self-pause, and invoke the callback. -/
def check_wake_word (cfg : DetectorConfig) (st : DetectorState) (text : String) (now : ℚ) :
    CheckResult :=
  if text = "" ∨ st.is_paused then ⟨st, false⟩
  else
    let t := py_strip (py_lower text)
    if now - st.last_detection < cfg.wake_word_cooldown then ⟨st, false⟩
    else
      match find_accepted_wake_word cfg t cfg.wake_words with
      | some _ => ⟨pause_listening { st with last_detection := now }, true⟩
      | none => ⟨st, false⟩

/-! ## ALSA audio arbiter (`alsa_audio_manager.py`)

The state machine over the two PCM slots.  Stream handles are numbered by a
freshness counter so that "a new stream was created" is observable.  Whether
the underlying `alsaaudio.PCM` constructor succeeds is an input
(`open_ok`); `close` on the PCM object is modelled as total, matching the
defensive catch-all in the source. -/

structure AlsaState where
  is_available : Bool
  recording_pcm : Option ℕ
  playback_pcm : Option ℕ
  is_recording : Bool
  is_playing : Bool
  next_handle : ℕ
  deriving DecidableEq

/-- Result of a stream-creation call: the returned boolean and the new
manager state. -/
structure AlsaCreateResult where
  ok : Bool
  state : AlsaState
  deriving DecidableEq

/-- `create_recording_stream`: fail when alsaaudio is unavailable; return
`True` without touching anything when a recording stream is already active;
otherwise open a fresh PCM (success per `open_ok`). -/
def create_recording_stream (st : AlsaState) (open_ok : Bool) : AlsaCreateResult :=
  if st.is_available = false then ⟨false, st⟩
  else if st.is_recording then ⟨true, st⟩
  else if open_ok then
    ⟨true, { st with recording_pcm := some st.next_handle, is_recording := true,
                     next_handle := st.next_handle + 1 }⟩
  else ⟨false, st⟩

/-- `create_playback_stream`: same shape as the recording side. -/
def create_playback_stream (st : AlsaState) (open_ok : Bool) : AlsaCreateResult :=
  if st.is_available = false then ⟨false, st⟩
  else if st.is_playing then ⟨true, st⟩
  else if open_ok then
    ⟨true, { st with playback_pcm := some st.next_handle, is_playing := true,
                     next_handle := st.next_handle + 1 }⟩
  else ⟨false, st⟩

/-- `close_recording_stream`: if a PCM is open, close it and — only when
that close call returns (`close_ok`) — clear the slot and the flag; the
clears sit after `close()` inside the `try` with no `finally`, so a raising
`close()` (swallowed by the catch-all) skips both and leaves the stream
active.  With no PCM open, the close is skipped and only the flag is
cleared.  The function itself never raises. -/
def close_recording_stream (st : AlsaState) (close_ok : Bool) : AlsaState :=
  match st.recording_pcm with
  | none => { st with is_recording := false }
  | some _ =>
    if close_ok then { st with recording_pcm := none, is_recording := false }
    else st

/-- `close_playback_stream`: same shape as the recording side. -/
def close_playback_stream (st : AlsaState) (close_ok : Bool) : AlsaState :=
  match st.playback_pcm with
  | none => { st with is_playing := false }
  | some _ =>
    if close_ok then { st with playback_pcm := none, is_playing := false }
    else st

/-! ## Legacy PyAudio arbiter (`shared_audio_manager.py`)

Streams keyed by a caller-chosen logical id (a Python dict; keys unique).
Handles are numbered by a freshness counter. -/

structure SharedState where
  active_streams : List (String × ℕ)
  next_handle : ℕ
  deriving DecidableEq

/-- `close_stream`: remove the entry for `stream_id` if present (stop/close
errors are swallowed; the `finally` always deletes the entry). -/
def close_stream (st : SharedState) (stream_id : String) : SharedState :=
  { st with active_streams := st.active_streams.filter (fun p => p.1 ≠ stream_id) }

/-- `create_stream`: the whole body runs holding `stream_lock`, and when an
entry for `stream_id` already exists it calls `close_stream`, which tries
to acquire the same non-reentrant lock — the call deadlocks and never
returns (modelled as `none`).  With no existing entry it opens a stream
(success per `open_ok`) and stores it, or stores nothing on failure. -/
def create_stream (st : SharedState) (stream_id : String) (open_ok : Bool) :
    Option (Option ℕ × SharedState) :=
  if (st.active_streams.lookup stream_id).isSome then none
  else if open_ok then
    some (some st.next_handle,
      { st with active_streams := (stream_id, st.next_handle) :: st.active_streams,
                next_handle := st.next_handle + 1 })
  else some (none, st)

/-! ## VAD recording (`audio_manager.py`, `record_with_vad`)

One loop iteration reads one chunk; the event carries the `time.time()`
value observed by that iteration and the samples of the chunk (empty = the
non-blocking read returned no data). -/

structure RecConfig where
  vad_energy_threshold : ℚ
  vad_silence_duration : ℚ
  max_recording_duration : ℚ
  deriving DecidableEq

structure RecEvent where
  t : ℚ
  chunk : List ℤ
  deriving DecidableEq

/-- numpy int16 wraparound: reduce an integer into `[-32768, 32767]` with
two's-complement truncation to 16 bits. -/
def int16_wrap (x : ℤ) : ℤ :=
  (x + 32768) % 65536 - 32768

/-- The VAD test `energy > VAD_ENERGY_THRESHOLD` with
`energy = sqrt(mean(audio_np ** 2)) / 32768`, where `audio_np` is the chunk
viewed as an int16 array.  `audio_np ** 2` squares element-wise and stays
int16, so each square silently wraps (`int16_wrap`); `np.mean` then averages
the wrapped squares exactly in float64.  A negative wrapped mean (and the
mean of an empty array) makes `np.sqrt` return NaN, and `NaN > t` is False.
For a nonnegative mean the comparison is stated in squared form, exact for
the nonnegative thresholds of every configuration; a negative threshold is
exceeded by any chunk whose wrapped mean is nonnegative. -/
def chunk_energy_exceeds (threshold : ℚ) (chunk : List ℤ) : Bool :=
  let s := (chunk.map (fun x => int16_wrap (x * x))).sum
  if chunk.length = 0 then false
  else if s < 0 then false
  else if threshold < 0 then true
  else decide ((threshold * 32768) ^ 2 * (chunk.length : ℚ) < (s : ℚ))

/-- The recording loop of `record_with_vad`: stop when the observed time
reaches `max_recording_duration` past `start`; skip empty reads; accumulate
every non-empty chunk (speech and silence alike); a speech chunk clears the
silence timer; a silence chunk starts it, and a silence chunk observed more
than `vad_silence_duration` after the timer started ends the session. -/
def record_loop (cfg : RecConfig) (start : ℚ) :
    List RecEvent → Option ℚ → List (List ℤ) → List (List ℤ)
  | [], _, acc => acc
  | e :: rest, silence_start, acc =>
    if cfg.max_recording_duration ≤ e.t - start then acc
    else if e.chunk = [] then record_loop cfg start rest silence_start acc
    else
      let acc1 := acc ++ [e.chunk]
      if chunk_energy_exceeds cfg.vad_energy_threshold e.chunk then
        record_loop cfg start rest none acc1
      else
        match silence_start with
        | none => record_loop cfg start rest (some e.t) acc1
        | some s =>
          if cfg.vad_silence_duration < e.t - s then acc1
          else record_loop cfg start rest (some s) acc1

/-- `record_with_vad`: `None` when recording cannot start (`alsa_ok` folds
the already-recording, ALSA-unavailable and stream-creation-failure early
returns) or when zero chunks were captured; otherwise the accumulated
utterance. -/
def record_with_vad (cfg : RecConfig) (alsa_ok : Bool) (start : ℚ) (events : List RecEvent) :
    Option (List (List ℤ)) :=
  if alsa_ok = false then none
  else
    let data := record_loop cfg start events none []
    if data = [] then none else some data

/-! ## Backend client (`backend_client.py`) -/

/-- What one HTTP attempt yields: a raised exception (transport failure or
body-parse failure), or a reply with a status code and the decoded JSON
fields the client reads.  `backend_isFallback` is an `isFallback` field the
backend itself may send; the client never reads it. -/
structure BackendJson where
  audioBase64 : Option String
  phonemes : List Phoneme
  text : String
  backend_isFallback : Option Bool
  deriving DecidableEq

inductive AttemptOutcome where
  | failed : AttemptOutcome
  | http : ℕ → BackendJson → AttemptOutcome
  deriving DecidableEq

/-- The dict `send_text_for_response` returns to the caller. -/
structure FurbyResponse where
  audio : Option String
  phonemes : List Phoneme
  text : String
  isFallback : Bool
  deriving DecidableEq

/-- The canned apologetic fallback response. -/
def fallback_response : FurbyResponse :=
  ⟨none, [], "I\x27m having trouble connecting right now, but I\x27m listening!", true⟩

/-- Did the attempt yield an HTTP 200 reply? -/
def attempt_ok : AttemptOutcome → Bool
  | .http 200 _ => true
  | _ => false

/-- The retry loop of `send_text_for_response`: attempt `attempt` with
`remaining` attempts left; a 200 reply returns immediately with
`isFallback := False` hard-coded; any other outcome moves to the next
attempt; exhaustion returns the canned fallback. -/
def send_loop (env : ℕ → AttemptOutcome) : ℕ → ℕ → FurbyResponse
  | _, 0 => fallback_response
  | attempt, remaining + 1 =>
    match env attempt with
    | .http status data =>
      if status = 200 then ⟨data.audioBase64, data.phonemes, data.text, false⟩
      else send_loop env (attempt + 1) remaining
    | .failed => send_loop env (attempt + 1) remaining

/-- `send_text_for_response` with `max_retries` attempts (default 3);
`env i` is what attempt `i` (0-based) would yield. -/
def send_text_for_response (env : ℕ → AttemptOutcome) (max_retries : ℕ) : FurbyResponse :=
  send_loop env 0 max_retries

/-! ## Session orchestrator (`furby_server.py`, `handle_wake_word`)

The handler is modelled as the sequence of outwardly visible actions it
performs.  `record_with_vad`, `transcribe_audio_file`, `play_audio` and
`send_text_for_response` all catch their own exceptions and so cannot raise
into the handler; `save_base64_audio` re-raises, so the environment says
whether it does. -/

inductive Act where
  | set_processing : Bool → Act
  | record : Act
  | transcribe : Act
  | backend : Act
  | save_audio : Act
  | play_and_animate : Act
  | animate_only : Act
  | animate_default : Act
  | express_sad : Act
  | sleep : ℚ → Act
  | resume : Act
  deriving DecidableEq

/-- Does the trace contain a delay (`time.sleep`) action? -/
def has_sleep : List Act → Bool
  | [] => false
  | Act.sleep _ :: _ => true
  | _ :: rest => has_sleep rest

/-- Python truthiness of the `audio` field (`None` and `""` are falsy). -/
def truthy_str : Option String → Bool
  | none => false
  | some s => !(s = "")

/-- Collaborator outcomes for one session. -/
structure SessionEnv where
  record_result : Option String
  stt_result : Option String
  backend_result : FurbyResponse
  save_raises : Bool
  deriving DecidableEq

/-- The `try` body of `handle_wake_word`: the actions performed and whether
an exception escaped the body (only `save_base64_audio` can raise). -/
def session_try_acts (env : SessionEnv) : List Act × Bool :=
  match env.record_result with
  | none => ([Act.record], false)
  | some _ =>
    match env.stt_result with
    | none => ([Act.record, Act.transcribe], false)
    | some tr =>
      if py_strip tr = "" then ([Act.record, Act.transcribe], false)
      else
        let resp := env.backend_result
        if truthy_str resp.audio && !resp.isFallback then
          if env.save_raises then
            ([Act.record, Act.transcribe, Act.backend, Act.save_audio], true)
          else
            ([Act.record, Act.transcribe, Act.backend, Act.save_audio, Act.play_and_animate],
             false)
        else if resp.phonemes ≠ [] then
          ([Act.record, Act.transcribe, Act.backend, Act.animate_only], false)
        else ([Act.record, Act.transcribe, Act.backend, Act.animate_default], false)

/-- `handle_wake_word`: a re-entrant trigger while `is_processing` is a
logged no-op; otherwise run the session body, on an escaped exception
express sadness (its own errors swallowed), and in the `finally` clear
`is_processing` and resume the listener.  The returned boolean is the final
`is_processing`. -/
def handle_wake_word (is_processing : Bool) (env : SessionEnv) : Bool × List Act :=
  if is_processing then (true, [])
  else
    let body := session_try_acts env
    (false,
     [Act.set_processing true] ++ body.1 ++
       (if body.2 then [Act.express_sad] else []) ++
       [Act.set_processing false, Act.resume])

/-- A concrete all-silence input stream for the recorder: thirty zero
chunks, one per second, all observed before the 30-second maximum. -/
def silent_events : List RecEvent :=
  (List.range 30).map (fun i => ⟨(i : ℚ), [0]⟩)

/-- Every chunk of the stream is non-empty silence (at or below the energy
threshold) and every observation time lies before `max_recording_duration`
past a session started at time 0. -/
def all_silent_within (cfg : RecConfig) (events : List RecEvent) : Bool :=
  events.all (fun e =>
    !(e.chunk = []) &&
      !chunk_energy_exceeds cfg.vad_energy_threshold e.chunk &&
        decide (e.t - 0 < cfg.max_recording_duration))

/-! ## Helper lemmas -/

theorem to_pairs_length : ∀ l : List ℤ, (to_pairs l).length = l.length / 2
  | [] => by simp [to_pairs]
  | [_] => by simp [to_pairs]
  | _ :: _ :: r => by
    have ih := to_pairs_length r
    simp only [to_pairs, List.length_cons, ih]
    omega

theorem every_third_length : ∀ l : List ℤ, (every_third l).length = (l.length + 2) / 3
  | [] => by simp [every_third]
  | [_] => by simp [every_third]
  | [_, _] => by simp [every_third]
  | _ :: _ :: _ :: r => by
    have ih := every_third_length r
    simp only [every_third, List.length_cons, ih]
    omega

theorem move_to_position_current (st : ServoState) (p : ℤ) :
    (move_to_position st p).current_position = max 0 (min 180 p) := rfl

/-! ## C7: servo clamping -/

/-- C7: `move_to_position` sets the tracked current position to the argument
clamped into `[0, 180]`; in particular `move_to(-10)` tracks `0` and
`move_to(300)` tracks `180`; the tracked result is the same whether or not
the physical actuator is active (degraded mode is transparent). -/
theorem C7_move_to_position_clamps (st : ServoState) (position : ℤ) :
    (move_to_position st position).current_position = max 0 (min 180 position) ∧
    0 ≤ (move_to_position st position).current_position ∧
    (move_to_position st position).current_position ≤ 180 ∧
    (move_to_position st (-10)).current_position = 0 ∧
    (move_to_position st 300).current_position = 180 ∧
    (∀ active : Bool,
      (move_to_position { st with is_active := active } position).current_position =
        (move_to_position st position).current_position) := by
  refine ⟨rfl, ?_, ?_, rfl, rfl, fun _ => rfl⟩ <;>
    · rw [move_to_position_current]; omega

/-! ## C8: animation and the return to the rest position -/

theorem animate_steps_no_raise (cfg : ServoConfig) :
    ∀ (ps : List Phoneme) (st : ServoState), (∀ p ∈ ps, 0 ≤ p.duration) →
      (animate_phoneme_steps cfg ps st).raised = false := by
  intro ps
  induction ps with
  | nil => intro st _; rfl
  | cons p t ih =>
    intro st h
    simp only [animate_phoneme_steps]
    rw [if_neg (not_lt.mpr (h p (by simp)))]
    exact ih _ (fun q hq => h q (by simp [hq]))

/-- C8 counterexample: a backend-supplied phoneme event with a negative
duration — `animate_mouth([{phoneme: "AA", duration: -1}])` — moves the
servo to 70 and then raises `ValueError` inside `time.sleep(-1)`, so the
animation aborts with the tracked position at 70, not at the configured
closed position 90: `animate_mouth` does not terminate at the closed/rest
position for every phoneme sequence. -/
theorem C8_counterexample :
    (animate_mouth ⟨90, 500, 2500⟩ ⟨false, 0⟩ (some [⟨"AA", -1⟩])).raised = true ∧
    (animate_mouth ⟨90, 500, 2500⟩ ⟨false, 0⟩
        (some [⟨"AA", -1⟩])).state.current_position = 70 ∧
    (70 : ℤ) ≠ 90 := by decide

/-- C8 amended: `animate_mouth` with no phonemes (`None` or the empty
list) and with any phoneme sequence whose durations are all nonnegative —
the only in-domain inputs on which `time.sleep` cannot raise — terminates
without an exception with the tracked position equal to the configured
closed/rest position, provided that position lies in `[0, 180]`; and
`express_emotion` (whose per-step delay is a constant) ends there for every
emotion name, known or unknown.  A phoneme event with a negative duration
makes `time.sleep` raise `ValueError`, aborting the animation with the
tracked position at the position just commanded for that event. -/
theorem C8_amended (cfg : ServoConfig) (st : ServoState)
    (h0 : 0 ≤ cfg.closed_position) (h1 : cfg.closed_position ≤ 180) :
    ((animate_mouth cfg st none).state.current_position = cfg.closed_position ∧
      (animate_mouth cfg st none).raised = false) ∧
    (∀ ps, (∀ p ∈ ps, 0 ≤ p.duration) →
      (animate_mouth cfg st (some ps)).state.current_position = cfg.closed_position ∧
      (animate_mouth cfg st (some ps)).raised = false) ∧
    (∀ emotion, (express_emotion cfg st emotion).current_position = cfg.closed_position) := by
  have hclamp : max 0 (min 180 cfg.closed_position) = cfg.closed_position := by omega
  refine ⟨⟨?_, rfl⟩, ?_, ?_⟩
  · show max 0 (min 180 cfg.closed_position) = cfg.closed_position
    exact hclamp
  · intro ps hps
    cases ps with
    | nil =>
      constructor
      · show max 0 (min 180 cfg.closed_position) = cfg.closed_position
        exact hclamp
      · rfl
    | cons p t =>
      have hr : (animate_phoneme_steps cfg (p :: t) st).raised = false :=
        animate_steps_no_raise cfg (p :: t) st hps
      constructor
      · simp only [animate_mouth]
        rw [if_neg (by rw [hr]; simp)]
        show max 0 (min 180 cfg.closed_position) = cfg.closed_position
        exact hclamp
      · simp only [animate_mouth]
        rw [if_neg (by rw [hr]; simp)]
  · intro e
    show max 0 (min 180 cfg.closed_position) = cfg.closed_position
    exact hclamp

/-- C8 witness: with the default configuration (closed position 90), a
well-formed one-phoneme animation and an emotion both end at 90. -/
theorem C8_witness :
    (animate_mouth ⟨90, 500, 2500⟩ ⟨false, 0⟩ (some [⟨"AA", 1⟩])).state.current_position =
      90 ∧
    (express_emotion ⟨90, 500, 2500⟩ ⟨false, 0⟩ "sad").current_position = 90 := by
  have h := C8_amended ⟨90, 500, 2500⟩ ⟨false, 0⟩ (by decide) (by decide)
  exact ⟨(h.2.1 [⟨"AA", 1⟩] (by decide)).1, h.2.2 "sad"⟩

/-! ## C2: audio adaptation lengths -/

/-- C2 counterexample: eight interleaved samples (even count) give four mono
samples, and decimation `[::3]` keeps indices 0 and 3 — two output samples,
not `floor(4 / 3) = 1` as the claim states. -/
theorem C2_counterexample :
    (process_audio_for_vosk [0, 0, 0, 0, 0, 0, 0, 0]).length = 2 ∧
    ([0, 0, 0, 0, 0, 0, 0, 0] : List ℤ).length % 2 = 0 ∧
    ([0, 0, 0, 0, 0, 0, 0, 0] : List ℤ).length / 2 = 4 ∧
    (4 : ℕ) / 3 = 1 ∧
    (2 : ℕ) ≠ 1 := by decide

/-- C2 amended: an odd trailing sample is dropped exactly (processing an
odd-count buffer equals processing the buffer without its last sample); for
an even sample count with `m` mono samples the output length is the ceiling
`(m + 2) / 3` when `m ≥ 3` (numpy `[::3]` keeps `ceil(m / 3)` samples, not
`floor(m / 3)`), and `m` itself when `m < 3` (decimation is skipped). -/
theorem C2_amended (samples : List ℤ) :
    (samples.length % 2 = 1 →
      process_audio_for_vosk samples = process_audio_for_vosk samples.dropLast) ∧
    (samples.length % 2 = 0 →
      (process_audio_for_vosk samples).length =
        if 3 ≤ samples.length / 2 then (samples.length / 2 + 2) / 3
        else samples.length / 2) := by
  constructor
  · intro h
    have hnil : samples ≠ [] := by
      intro e; rw [e] at h; simp at h
    have hlen : 1 ≤ samples.length := by
      cases samples with
      | nil => exact absurd rfl hnil
      | cons a t => simp
    have hd : samples.dropLast.length = samples.length - 1 := List.length_dropLast samples
    by_cases hdnil : samples.dropLast = []
    · obtain ⟨x, hx⟩ : ∃ x, samples = [x] := by
        cases samples with
        | nil => exact absurd rfl hnil
        | cons a t =>
          have ht : t = [] := by
            have h0 : (a :: t).dropLast.length = 0 := by rw [hdnil]; rfl
            have : t.length = 0 := by
              rw [List.length_dropLast] at h0
              simpa using h0
            exact List.eq_nil_of_length_eq_zero this
          exact ⟨a, by rw [ht]⟩
      subst hx
      rfl
    · simp only [process_audio_for_vosk]
      rw [if_neg hnil, if_neg hdnil,
        if_pos (show samples.length % 2 ≠ 0 by omega),
        if_neg (show ¬ samples.dropLast.length % 2 ≠ 0 by omega)]
  · intro h
    by_cases hnil : samples = []
    · rw [hnil]; rfl
    · simp only [process_audio_for_vosk]
      rw [if_neg hnil, if_neg (show ¬ samples.length % 2 ≠ 0 by omega)]
      rw [apply_ite List.length, every_third_length, List.length_map, to_pairs_length]

/-- C2 witness: `[1, 2, 3]` (odd) is processed like `[1, 2]`, and eight
zeros (even, four mono samples) yield two output samples. -/
theorem C2_witness :
    process_audio_for_vosk [1, 2, 3] = process_audio_for_vosk [1, 2] ∧
    (process_audio_for_vosk [0, 0, 0, 0, 0, 0, 0, 0]).length =
      if 3 ≤ ([0, 0, 0, 0, 0, 0, 0, 0] : List ℤ).length / 2
      then (([0, 0, 0, 0, 0, 0, 0, 0] : List ℤ).length / 2 + 2) / 3
      else ([0, 0, 0, 0, 0, 0, 0, 0] : List ℤ).length / 2 := by
  constructor
  · have h := (C2_amended [1, 2, 3]).1 (by decide)
    simpa using h
  · exact (C2_amended [0, 0, 0, 0, 0, 0, 0, 0]).2 (by decide)

/-! ## Association-list lemmas for the shared arbiter -/

theorem lookup_filter_ne (l : List (String × ℕ)) (id : String) :
    (l.filter (fun p => p.1 ≠ id)).lookup id = none := by
  induction l with
  | nil => rfl
  | cons p t ih =>
    rw [List.filter_cons]
    by_cases h : p.1 = id
    · rw [if_neg (by simp [h])]
      exact ih
    · have hb : (id == p.1) = false := by
        rw [beq_eq_false_iff_ne]
        exact fun e => h e.symm
      rw [if_pos (by simp [h]), List.lookup, hb]
      exact ih

theorem filter_ne_of_lookup_none (l : List (String × ℕ)) (id : String)
    (h : l.lookup id = none) : l.filter (fun p => p.1 ≠ id) = l := by
  induction l with
  | nil => rfl
  | cons p t ih =>
    rw [List.lookup] at h
    cases hb : (id == p.1) with
    | true =>
      rw [hb] at h
      exact absurd h (by simp)
    | false =>
      rw [hb] at h
      have hne : p.1 ≠ id := by
        rw [beq_eq_false_iff_ne] at hb
        exact fun e => hb e.symm
      rw [List.filter_cons, if_pos (by simp [hne]), ih h]

/-! ## C3: stream replacement semantics -/

/-- C3 counterexample: with ALSA available and a recording stream already
open (handle 0), a second `create_recording_stream` call returns `True` but
leaves the state untouched: the old stream is still open (`recording_pcm`
is still handle 0) and no new stream was created (the freshness counter is
still 1).  The arbiter the pipeline uses keeps the old stream instead of
closing it and creating a new one. -/
theorem C3_counterexample :
    (create_recording_stream ⟨true, none, none, false, false, 0⟩ true).state.recording_pcm =
      some 0 ∧
    (create_recording_stream
        ((create_recording_stream ⟨true, none, none, false, false, 0⟩ true).state) true).ok =
      true ∧
    (create_recording_stream
        ((create_recording_stream ⟨true, none, none, false, false, 0⟩ true).state) true).state =
      (create_recording_stream ⟨true, none, none, false, false, 0⟩ true).state ∧
    (create_recording_stream
        ((create_recording_stream ⟨true, none, none, false, false, 0⟩ true).state)
        true).state.next_handle = 1 := by decide

/-- C3 amended: in the ALSA arbiter, opening a capture (or playback) stream
while one is already open is a success-returning no-op that keeps the
existing stream — the old stream is not closed and no new one is created —
and a capture open never touches the playback slot (and conversely), so at
most one stream per direction ever exists (each direction is a single
slot).  The legacy PyAudio arbiter never completes a replace: its
`create_stream` on a logical id that already has a stream calls
`close_stream` while holding the non-reentrant `stream_lock` and so
deadlocks (never returns); only on an id with no open stream does it
create a stream, the new entry being the sole one for that id. -/
theorem C3_amended (st : AlsaState) (open_ok : Bool) (sst : SharedState)
    (stream_id : String) (open_ok2 : Bool) :
    (st.is_available = true → st.is_recording = true →
      create_recording_stream st open_ok = ⟨true, st⟩) ∧
    (st.is_available = true → st.is_playing = true →
      create_playback_stream st open_ok = ⟨true, st⟩) ∧
    (create_recording_stream st open_ok).state.playback_pcm = st.playback_pcm ∧
    (create_playback_stream st open_ok).state.recording_pcm = st.recording_pcm ∧
    ((sst.active_streams.lookup stream_id).isSome →
      create_stream sst stream_id open_ok2 = none) ∧
    (sst.active_streams.lookup stream_id = none →
      create_stream sst stream_id open_ok2 =
        some (if open_ok2 then
                (some sst.next_handle,
                 ⟨(stream_id, sst.next_handle) :: sst.active_streams, sst.next_handle + 1⟩)
              else (none, sst))) := by
  refine ⟨?_, ?_, ?_, ?_, ?_, ?_⟩
  · intro hA h
    unfold create_recording_stream
    rw [if_neg (by simp [hA]), if_pos (by rw [h])]
  · intro hA h
    unfold create_playback_stream
    rw [if_neg (by simp [hA]), if_pos (by rw [h])]
  · unfold create_recording_stream
    split_ifs <;> rfl
  · unfold create_playback_stream
    split_ifs <;> rfl
  · intro hl
    unfold create_stream
    rw [if_pos hl]
  · intro hn
    unfold create_stream
    rw [if_neg (by rw [hn]; simp)]
    by_cases ho : open_ok2 = true
    · rw [if_pos ho, if_pos ho]
    · rw [if_neg ho, if_neg ho]

/-- C3 witness: a second open on an active ALSA recording stream is a
keep-old no-op, and a `create_stream` on an id that already holds handle 0
deadlocks instead of replacing it. -/
theorem C3_witness :
    create_recording_stream ⟨true, some 0, none, true, false, 1⟩ true =
      ⟨true, ⟨true, some 0, none, true, false, 1⟩⟩ ∧
    create_stream ⟨[("recording", 0)], 1⟩ "recording" true = none := by
  have h := C3_amended ⟨true, some 0, none, true, false, 1⟩ true ⟨[("recording", 0)], 1⟩
    "recording" true
  exact ⟨h.1 rfl rfl, h.2.2.2.2.1 (by decide)⟩

/-! ## C9: closing streams -/

/-- C9 counterexample: in the ALSA arbiter, when the underlying
`pcm.close()` raises, the catch-all swallows the exception but the
assignments clearing the slot and the flag are skipped (they sit after
`close()` inside the `try`, with no `finally`): a close call on an open
recording stream can leave the stream active — `is_recording` still true
and the PCM slot still set — refuting that after any close call the stream
for that direction is not active. -/
theorem C9_counterexample :
    close_recording_stream ⟨true, some 0, none, true, false, 1⟩ false =
      ⟨true, some 0, none, true, false, 1⟩ ∧
    (close_recording_stream ⟨true, some 0, none, true, false, 1⟩ false).is_recording = true ∧
    (close_recording_stream ⟨true, some 0, none, true, false, 1⟩ false).recording_pcm =
      some 0 := by decide

/-- C9 amended: closing is total — every close call returns without
raising, also on an already-closed or never-opened handle.  In the shared
PyAudio arbiter the guarantee is unconditional: closing twice equals
closing once, the id is inactive afterwards, and closing a never-opened id
changes nothing.  In the ALSA arbiter the direction is inactive afterwards
whenever the underlying PCM close returns — or no PCM was open (then only
the flag is cleared) — and closing again after a successful close changes
nothing; but when the underlying PCM close raises, the swallowed exception
skips the slot and flag clears and the stream stays active, so
deactivation is not guaranteed on that path. -/
theorem C9_amended (st : AlsaState) (ok ok2 : Bool) (sst : SharedState) (stream_id : String) :
    (close_recording_stream st true).is_recording = false ∧
    (close_recording_stream st true).recording_pcm = none ∧
    close_recording_stream (close_recording_stream st true) ok2 =
      close_recording_stream st true ∧
    (st.recording_pcm = none →
      close_recording_stream st ok = { st with is_recording := false }) ∧
    (st.recording_pcm.isSome → close_recording_stream st false = st) ∧
    (close_playback_stream st true).is_playing = false ∧
    (close_playback_stream st true).playback_pcm = none ∧
    close_playback_stream (close_playback_stream st true) ok2 =
      close_playback_stream st true ∧
    (st.playback_pcm = none →
      close_playback_stream st ok = { st with is_playing := false }) ∧
    (st.playback_pcm.isSome → close_playback_stream st false = st) ∧
    close_stream (close_stream sst stream_id) stream_id = close_stream sst stream_id ∧
    (close_stream sst stream_id).active_streams.lookup stream_id = none ∧
    (sst.active_streams.lookup stream_id = none → close_stream sst stream_id = sst) := by
  refine ⟨?_, ?_, ?_, ?_, ?_, ?_, ?_, ?_, ?_, ?_, ?_,
    lookup_filter_ne sst.active_streams stream_id, ?_⟩
  · cases h : st.recording_pcm <;> simp [close_recording_stream, h]
  · cases h : st.recording_pcm <;> simp [close_recording_stream, h]
  · cases h : st.recording_pcm <;> simp [close_recording_stream, h]
  · intro h
    cases ok <;> simp [close_recording_stream, h]
  · intro h
    cases hp : st.recording_pcm with
    | none => rw [hp] at h; cases h
    | some v => simp [close_recording_stream, hp]
  · cases h : st.playback_pcm <;> simp [close_playback_stream, h]
  · cases h : st.playback_pcm <;> simp [close_playback_stream, h]
  · cases h : st.playback_pcm <;> simp [close_playback_stream, h]
  · intro h
    cases ok <;> simp [close_playback_stream, h]
  · intro h
    cases hp : st.playback_pcm with
    | none => rw [hp] at h; cases h
    | some v => simp [close_playback_stream, hp]
  · unfold close_stream
    congr 1
    exact filter_ne_of_lookup_none _ _ (lookup_filter_ne sst.active_streams stream_id)
  · intro h
    unfold close_stream
    rw [filter_ne_of_lookup_none sst.active_streams stream_id h]

/-- C9 witness: closing the never-opened id on an empty shared arbiter is
the identity, a double close after a successful ALSA close equals the
single close, and closing a never-opened ALSA direction just clears the
flag without raising. -/
theorem C9_witness :
    close_stream ⟨[], 5⟩ "recording" = ⟨[], 5⟩ ∧
    close_recording_stream (close_recording_stream ⟨true, some 0, none, true, false, 1⟩ true)
        true = close_recording_stream ⟨true, some 0, none, true, false, 1⟩ true ∧
    close_recording_stream ⟨true, none, none, false, false, 1⟩ true =
      ⟨true, none, none, false, false, 1⟩ := by
  have h := C9_amended ⟨true, some 0, none, true, false, 1⟩ true true ⟨[], 5⟩ "recording"
  have h2 := C9_amended ⟨true, none, none, false, false, 1⟩ true true ⟨[], 5⟩ "recording"
  exact ⟨h.2.2.2.2.2.2.2.2.2.2.2.2 rfl, h.2.2.1, h2.2.2.2.1 rfl⟩

/-! ## C5: wake-word acceptance -/

theorem find_accepted_isSome_iff (cfg : DetectorConfig) (t : String) :
    ∀ ws : List String,
      (find_accepted_wake_word cfg t ws).isSome = true ↔
        ∃ w ∈ ws, str_has_sub t w = true ∧
          cfg.wake_word_confidence ≤ calculate_confidence t w := by
  intro ws
  induction ws with
  | nil => simp [find_accepted_wake_word]
  | cons w ws ih =>
    by_cases h1 : str_has_sub t w = true
    · by_cases h2 : cfg.wake_word_confidence ≤ calculate_confidence t w
      · simp only [find_accepted_wake_word, if_pos h1, if_pos h2, Option.isSome_some]
        constructor
        · intro _
          exact ⟨w, by simp, h1, h2⟩
        · intro _
          trivial
      · simp only [find_accepted_wake_word, if_pos h1, if_neg h2, ih]
        constructor
        · rintro ⟨v, hv, hsub, hconf⟩
          exact ⟨v, by simp [hv], hsub, hconf⟩
        · rintro ⟨v, hv, hsub, hconf⟩
          rcases List.mem_cons.mp hv with he | hm
          · exact absurd (he ▸ hconf) h2
          · exact ⟨v, hm, hsub, hconf⟩
    · simp only [find_accepted_wake_word, if_neg h1, ih]
      constructor
      · rintro ⟨v, hv, hsub, hconf⟩
        exact ⟨v, by simp [hv], hsub, hconf⟩
      · rintro ⟨v, hv, hsub, hconf⟩
        rcases List.mem_cons.mp hv with he | hm
        · exact absurd (he ▸ hsub) h1
        · exact ⟨v, hm, hsub, hconf⟩

/-- C5 counterexample: the text `"furby hey"` contains every word of the
phrase `"hey furby"`, so its word-overlap confidence is `1.0 ≥ 0.7`; the
claim therefore predicts acceptance, yet `_check_wake_word` does not fire
(the detector is listening, not paused, and far outside the cooldown)
because the loop first requires the phrase to occur as a substring of the
text, which `"hey furby"` does not in `"furby hey"`. -/
theorem C5_counterexample :
    calculate_confidence "furby hey" "hey furby" = 1 ∧
    ((7 : ℚ) / 10 ≤ 1) ∧
    str_has_sub "furby hey" "hey furby" = false ∧
    (check_wake_word ⟨["hey furby"], 5, 7/10⟩ ⟨true, false, -10⟩ "furby hey" 0).fired =
      false := by
  refine ⟨by decide, by decide, by decide, by decide⟩

/-- C5 amended: outside the cooldown window, with nonempty text and the
detector not paused, the detector accepts exactly when some configured
phrase is a substring of the lower-cased, stripped text AND that phrase has
word-overlap confidence at least the threshold (not on confidence alone);
on acceptance the detection time is recorded and the detector self-pauses.
The confidence examples of the claim hold as stated:
`confidence("hey furby wake up", "hey furby") = 1`,
`confidence("furby", "hey furby") = 1/2`, and an exact full-string match
yields `1`. -/
theorem C5_amended (cfg : DetectorConfig) (st : DetectorState) (text : String) (now : ℚ)
    (hp : st.is_paused = false) (ht : text ≠ "")
    (hc : cfg.wake_word_cooldown ≤ now - st.last_detection) :
    ((check_wake_word cfg st text now).fired = true ↔
      ∃ w ∈ cfg.wake_words,
        str_has_sub (py_strip (py_lower text)) w = true ∧
          cfg.wake_word_confidence ≤ calculate_confidence (py_strip (py_lower text)) w) ∧
    ((check_wake_word cfg st text now).fired = true →
      (check_wake_word cfg st text now).state.last_detection = now ∧
      (st.is_listening = true → (check_wake_word cfg st text now).state.is_paused = true)) ∧
    calculate_confidence "hey furby wake up" "hey furby" = 1 ∧
    calculate_confidence "furby" "hey furby" = 1/2 ∧
    (∀ s : String, calculate_confidence s s = 1) := by
  have hcond : ¬ (text = "" ∨ st.is_paused = true) := by
    rintro (he | he)
    · exact ht he
    · rw [hp] at he; exact absurd he (by simp)
  have hcool : ¬ (now - st.last_detection < cfg.wake_word_cooldown) := not_lt.mpr hc
  refine ⟨?_, ?_, by decide, by decide, ?_⟩
  · simp only [check_wake_word, if_neg hcond, if_neg hcool]
    cases hfa : find_accepted_wake_word cfg (py_strip (py_lower text)) cfg.wake_words with
    | none =>
      have := (find_accepted_isSome_iff cfg (py_strip (py_lower text)) cfg.wake_words)
      rw [hfa] at this
      simpa using this
    | some w =>
      have := (find_accepted_isSome_iff cfg (py_strip (py_lower text)) cfg.wake_words)
      rw [hfa] at this
      simpa using this
  · intro hf
    simp only [check_wake_word, if_neg hcond, if_neg hcool] at hf ⊢
    cases hfa : find_accepted_wake_word cfg (py_strip (py_lower text)) cfg.wake_words with
    | none => rw [hfa] at hf; simp at hf
    | some w =>
      constructor
      · show (pause_listening { st with last_detection := now }).last_detection = now
        unfold pause_listening
        split_ifs <;> rfl
      · intro hl
        show (pause_listening { st with last_detection := now }).is_paused = true
        simp [pause_listening, hl]
  · intro s
    simp [calculate_confidence]

/-- C5 witness: the default-style configuration accepts `"hey furby"`
(an exact match, hence a substring with confidence 1 ≥ 0.7). -/
theorem C5_witness :
    (check_wake_word ⟨["hey furby"], 5, 7/10⟩ ⟨true, false, -10⟩ "hey furby" 0).fired =
      true := by
  have h := C5_amended ⟨["hey furby"], 5, 7/10⟩ ⟨true, false, -10⟩ "hey furby" 0 rfl
    (by decide) (by decide)
  exact h.1.mpr ⟨"hey furby", by simp, by decide, by decide⟩

/-! ## C6: cooldown gives exactly one callback -/

theorem check_wake_word_of_paused (cfg : DetectorConfig) (st : DetectorState) (text : String)
    (now : ℚ) (h : st.is_paused = true) : check_wake_word cfg st text now = ⟨st, false⟩ := by
  simp only [check_wake_word]
  rw [if_pos (Or.inr h)]

theorem check_wake_word_of_cooldown (cfg : DetectorConfig) (st : DetectorState) (text : String)
    (now : ℚ) (ht : text ≠ "") (hp : st.is_paused = false)
    (h : now - st.last_detection < cfg.wake_word_cooldown) :
    check_wake_word cfg st text now = ⟨st, false⟩ := by
  have hcond : ¬ (text = "" ∨ st.is_paused = true) := by
    rintro (he | he)
    · exact ht he
    · rw [hp] at he; exact absurd he (by simp)
  simp only [check_wake_word]
  rw [if_neg hcond, if_pos h]

theorem check_fired_state (cfg : DetectorConfig) (st : DetectorState) (text : String) (now : ℚ)
    (h : (check_wake_word cfg st text now).fired = true) :
    (check_wake_word cfg st text now).state =
        pause_listening { st with last_detection := now } ∧
      text ≠ "" ∧ st.is_paused = false := by
  by_cases hcond : (text = "" ∨ st.is_paused = true)
  · rw [check_wake_word, if_pos hcond] at h
    simp at h
  · have ht : text ≠ "" := fun e => hcond (Or.inl e)
    have hp : st.is_paused = false := by
      cases hb : st.is_paused with
      | false => rfl
      | true => exact absurd (Or.inr hb) hcond
    refine ⟨?_, ht, hp⟩
    by_cases hcool : now - st.last_detection < cfg.wake_word_cooldown
    · rw [check_wake_word] at h
      rw [if_neg hcond, if_pos hcool] at h
      simp at h
    · simp only [check_wake_word, if_neg hcond, if_neg hcool] at h ⊢
      cases hfa : find_accepted_wake_word cfg (py_strip (py_lower text)) cfg.wake_words with
      | none => rw [hfa] at h; simp at h
      | some w => rfl

/-- C6: two detections of the same matching text less than
`cooldown_seconds` apart invoke the callback exactly once: after a first
accepted detection at `t1`, a second check at `t2` with
`t2 - t1 < cooldown` does not fire and does not update the last-detection
time — whether the detector is still self-paused (rejected by the pause
check) or has been resumed in between (rejected by the cooldown check). -/
theorem C6_cooldown_single_callback (cfg : DetectorConfig) (st : DetectorState) (text : String)
    (t1 t2 : ℚ) (b : Bool)
    (h1 : (check_wake_word cfg st text t1).fired = true)
    (h2 : t2 - t1 < cfg.wake_word_cooldown) :
    (check_wake_word cfg st text t1).state.last_detection = t1 ∧
    (check_wake_word cfg
        { (check_wake_word cfg st text t1).state with is_paused := b } text t2).fired =
      false ∧
    (check_wake_word cfg
        { (check_wake_word cfg st text t1).state with is_paused := b }
        text t2).state.last_detection = t1 := by
  obtain ⟨hstate, htext, hpause⟩ := check_fired_state cfg st text t1 h1
  have hlast : (check_wake_word cfg st text t1).state.last_detection = t1 := by
    rw [hstate]
    simp only [pause_listening]
    split_ifs <;> rfl
  have hb : ∀ c : Bool,
      check_wake_word cfg { (check_wake_word cfg st text t1).state with is_paused := c } text
          t2 =
        ⟨{ (check_wake_word cfg st text t1).state with is_paused := c }, false⟩ := by
    intro c
    cases c with
    | true => exact check_wake_word_of_paused cfg _ text t2 rfl
    | false =>
      refine check_wake_word_of_cooldown cfg _ text t2 htext rfl ?_
      show t2 - (check_wake_word cfg st text t1).state.last_detection < cfg.wake_word_cooldown
      rw [hlast]
      exact h2
  refine ⟨hlast, ?_, ?_⟩
  · rw [hb b]
  · rw [hb b]
    exact hlast

/-- C6 witness: an accepted `"hey furby"` at time 0 followed by the same
text at time 1 (cooldown 5, detector resumed in between) fires no second
callback. -/
theorem C6_witness :
    (check_wake_word ⟨["hey furby"], 5, 7/10⟩
        { (check_wake_word ⟨["hey furby"], 5, 7/10⟩ ⟨true, false, -10⟩ "hey furby" 0).state with
          is_paused := false } "hey furby" 1).fired = false := by
  exact (C6_cooldown_single_callback ⟨["hey furby"], 5, 7/10⟩ ⟨true, false, -10⟩ "hey furby"
    0 1 false (by decide) (by decide)).2.1

/-! ## C1: VAD end-pointing on silence -/

/-- C1 counterexample: feeding `record_with_vad` a stream of thirty silence
frames (one per second, every one below the energy threshold and observed
well before the 30-second maximum) ends the session after only four frames —
when the silence timer started at the first frame exceeds the 2-second
silence duration — not at `max_duration`, because the loop has no
seen-a-speech-frame condition. -/
theorem C1_counterexample :
    silent_events.length = 30 ∧
    all_silent_within ⟨1/100, 2, 30⟩ silent_events = true ∧
    (record_loop ⟨1/100, 2, 30⟩ 0 silent_events none []).length = 4 ∧
    (4 : ℕ) ≠ 30 := by decide

/-- C1 amended: sustained silence ends the session whether or not a speech
frame has been seen: whenever the silence timer is set to `s` and a
non-empty silence frame is observed more than `vad_silence_duration` after
`s` (and before `max_duration`), the loop ends the session at once,
keeping that frame and reading none of the rest of the stream — so an
all-silence stream ends at the silence threshold, not at `max_duration`.
The recorder still never returns an utterance shorter than one frame: a
successful `record_with_vad` result contains at least one chunk. -/
theorem C1_amended (cfg : RecConfig) (start s : ℚ) (e : RecEvent) (rest : List RecEvent)
    (acc : List (List ℤ)) (alsa_ok : Bool) (events : List RecEvent) (u : List (List ℤ))
    (h1 : e.t - start < cfg.max_recording_duration)
    (h2 : e.chunk ≠ [])
    (h3 : chunk_energy_exceeds cfg.vad_energy_threshold e.chunk = false)
    (h4 : cfg.vad_silence_duration < e.t - s) :
    record_loop cfg start (e :: rest) (some s) acc = acc ++ [e.chunk] ∧
    (record_with_vad cfg alsa_ok start events = some u → u ≠ []) := by
  constructor
  · simp only [record_loop]
    rw [if_neg (not_le.mpr h1), if_neg h2, if_neg (by rw [h3]; simp), if_pos h4]
  · intro h
    by_cases ha : alsa_ok = false
    · rw [record_with_vad, if_pos ha] at h
      cases h
    · rw [record_with_vad, if_neg ha] at h
      by_cases hd : record_loop cfg start events none [] = []
      · rw [if_pos hd] at h
        cases h
      · rw [if_neg hd] at h
        cases h
        exact hd

/-- C1 witness: a silence frame at `t = 3` with the silence timer set at 0
(silence duration 2, maximum 30) ends the session with the frames captured
so far, and the all-silence run returns a nonempty utterance. -/
theorem C1_witness :
    record_loop ⟨1/100, 2, 30⟩ 0 [⟨3, [0]⟩] (some 0) [[0], [0], [0]] =
      [[0], [0], [0], [0]] ∧
    ([[0], [0], [0], [0]] : List (List ℤ)) ≠ [] := by
  have h := C1_amended ⟨1/100, 2, 30⟩ 0 0 ⟨3, [0]⟩ [] [[0], [0], [0]] true silent_events
    [[0], [0], [0], [0]] (by decide) (by decide) (by decide) (by decide)
  exact ⟨h.1, h.2 (by decide)⟩

/-! ## C4: the session handler always resumes the listener, with no delay -/

/-- C4 counterexample: a session in which recording returns nothing produces
the trace `[set_processing true, record, set_processing false, resume]`: the
listener is resumed, but the handler performs no delay action at all before
the resume (there is no `time.sleep` between the end of processing and
`resume_listening`), contradicting the claimed short fixed delay. -/
theorem C4_counterexample :
    (handle_wake_word false ⟨none, none, ⟨none, [], "", false⟩, false⟩).2 =
      [Act.set_processing true, Act.record, Act.set_processing false, Act.resume] ∧
    Act.resume ∈ (handle_wake_word false ⟨none, none, ⟨none, [], "", false⟩, false⟩).2 ∧
    has_sleep (handle_wake_word false ⟨none, none, ⟨none, [], "", false⟩, false⟩).2 =
      false := by decide

/-- C4 amended: every invocation that starts a session (`is_processing` was
false) resumes the wake-word listener exactly once, as the final action, in
all cases — success, no utterance, empty transcription, or an exception
from saving the audio — but the resume is immediate: the handler contains
no delay action before it.  A re-entrant trigger performs nothing. -/
theorem C4_amended (env : SessionEnv) :
    handle_wake_word true env = (true, []) ∧
    (handle_wake_word false env).1 = false ∧
    (handle_wake_word false env).2.getLast? = some Act.resume ∧
    (handle_wake_word false env).2.count Act.resume = 1 ∧
    has_sleep (handle_wake_word false env).2 = false := by
  obtain ⟨racts, raised, hcase, hres, hsleep⟩ :
      ∃ racts raised, session_try_acts env = (racts, raised) ∧
        racts.count Act.resume = 0 ∧ has_sleep (racts ++
          (if raised then [Act.express_sad] else []) ++
          [Act.set_processing false, Act.resume]) = false := by
    rcases env with ⟨rr, sr, resp, sv⟩
    cases rr with
    | none => exact ⟨_, _, rfl, by decide, by decide⟩
    | some f =>
      cases sr with
      | none => exact ⟨_, _, rfl, by decide, by decide⟩
      | some tr =>
        simp only [session_try_acts]
        by_cases hstrip : py_strip tr = ""
        · rw [if_pos hstrip]
          exact ⟨_, _, rfl, by decide, by decide⟩
        · rw [if_neg hstrip]
          by_cases haud : (truthy_str resp.audio && !resp.isFallback) = true
          · rw [if_pos haud]
            cases sv with
            | true => exact ⟨_, _, by rw [if_pos rfl], by decide, by decide⟩
            | false => exact ⟨_, _, by rw [if_neg (by simp)], by decide, by decide⟩
          · rw [if_neg haud]
            by_cases hph : resp.phonemes ≠ []
            · rw [if_pos hph]
              exact ⟨_, _, rfl, by decide, by decide⟩
            · rw [if_neg hph]
              exact ⟨_, _, rfl, by decide, by decide⟩
  have hunfold : handle_wake_word false env =
      (false, [Act.set_processing true] ++ racts ++
        (if raised then [Act.express_sad] else []) ++
        [Act.set_processing false, Act.resume]) := by
    simp only [handle_wake_word, hcase]
    rfl
  have hlastlem : ∀ l : List Act,
      (l ++ [Act.set_processing false, Act.resume]).getLast? = some Act.resume := by
    intro l
    rw [show [Act.set_processing false, Act.resume] =
        [Act.set_processing false] ++ [Act.resume] from rfl,
      ← List.append_assoc, List.getLast?_concat]
  refine ⟨rfl, by rw [hunfold], ?_, ?_, ?_⟩
  · rw [hunfold]
    exact hlastlem _
  · rw [hunfold]
    cases raised with
    | true =>
      simp only [if_pos rfl]
      simp [List.count_append, List.count_cons, hres]
    | false =>
      simp only [if_neg (by simp : ¬ (false = true))]
      simp [List.count_append, List.count_cons, hres]
  · rw [hunfold]
    show has_sleep (Act.set_processing true ::
      (racts ++ (if raised then [Act.express_sad] else []) ++
        [Act.set_processing false, Act.resume])) = false
    rw [show ∀ l, has_sleep (Act.set_processing true :: l) = has_sleep l from fun l => rfl]
    exact hsleep

/-! ## C10: backend fallback semantics -/

theorem send_loop_isFallback (env : ℕ → AttemptOutcome) :
    ∀ remaining attempt,
      ((send_loop env attempt remaining).isFallback = true ↔
        ∀ i < remaining, attempt_ok (env (attempt + i)) = false) := by
  intro remaining
  induction remaining with
  | zero =>
    intro attempt
    simp [send_loop, fallback_response]
  | succ n ih =>
    intro attempt
    simp only [send_loop]
    split
    · rename_i status data heq
      by_cases hs : status = 200
      · rw [if_pos hs]
        constructor
        · intro habs
          cases habs
        · intro hall
          have h0 := hall 0 (by omega)
          rw [Nat.add_zero, heq, hs] at h0
          exact absurd h0 (by simp [attempt_ok])
      · rw [if_neg hs, ih (attempt + 1)]
        constructor
        · intro hall i hi
          cases i with
          | zero =>
            rw [Nat.add_zero, heq]
            simp [attempt_ok, hs]
          | succ j =>
            have he : attempt + (j + 1) = (attempt + 1) + j := by omega
            rw [he]
            exact hall j (by omega)
        · intro hall i hi
          have he : (attempt + 1) + i = attempt + (i + 1) := by omega
          rw [he]
          exact hall (i + 1) (by omega)
    · rename_i heq
      rw [ih (attempt + 1)]
      constructor
      · intro hall i hi
        cases i with
        | zero => rw [Nat.add_zero, heq]; rfl
        | succ j =>
          have he : attempt + (j + 1) = (attempt + 1) + j := by omega
          rw [he]
          exact hall j (by omega)
      · intro hall i hi
        have he : (attempt + 1) + i = attempt + (i + 1) := by omega
        rw [he]
        exact hall (i + 1) (by omega)

theorem send_loop_cases (env : ℕ → AttemptOutcome) :
    ∀ remaining attempt,
      send_loop env attempt remaining = fallback_response ∨
        (send_loop env attempt remaining).isFallback = false := by
  intro remaining
  induction remaining with
  | zero => intro attempt; exact Or.inl rfl
  | succ n ih =>
    intro attempt
    simp only [send_loop]
    split
    · rename_i status data heq
      by_cases hs : status = 200
      · rw [if_pos hs]
        exact Or.inr rfl
      · rw [if_neg hs]
        exact ih (attempt + 1)
    · exact ih (attempt + 1)

/-- C10: `send_text_for_response` never raises (it is a total function of
the attempt outcomes) and returns `isFallback = true` exactly when none of
its `max_retries` attempts (default 3) received an HTTP 200 reply; in that
case the whole response is the canned apologetic fallback (text fixed,
no audio, no phonemes).  Whenever some attempt does receive a 200 reply,
`isFallback` is the hard-coded `False` — an `isFallback` field sent by the
backend itself (`backend_isFallback`) never reaches the caller. -/
theorem C10_backend_fallback (env : ℕ → AttemptOutcome) (max_retries : ℕ) :
    ((send_text_for_response env max_retries).isFallback = true ↔
      ∀ i < max_retries, attempt_ok (env i) = false) ∧
    ((send_text_for_response env max_retries).isFallback = true →
      send_text_for_response env max_retries = fallback_response) ∧
    (∀ i, i < max_retries → attempt_ok (env i) = true →
      (send_text_for_response env max_retries).isFallback = false) := by
  have hiff : (send_text_for_response env max_retries).isFallback = true ↔
      ∀ i < max_retries, attempt_ok (env i) = false := by
    have h := send_loop_isFallback env max_retries 0
    simpa [send_text_for_response] using h
  refine ⟨hiff, ?_, ?_⟩
  · intro h
    rcases send_loop_cases env max_retries 0 with hc | hc
    · exact hc
    · rw [send_text_for_response] at h
      rw [h] at hc
      cases hc
  · intro i hi hok
    cases hfb : (send_text_for_response env max_retries).isFallback with
    | false => rfl
    | true =>
      have := hiff.mp hfb i hi
      rw [hok] at this
      cases this

/-- C10 witness: when every attempt raises, three retries end in the canned
fallback response. -/
theorem C10_witness :
    send_text_for_response (fun _ => AttemptOutcome.failed) 3 = fallback_response := by
  have h := C10_backend_fallback (fun _ => AttemptOutcome.failed) 3
  exact h.2.1 (h.1.mpr (fun i _ => rfl))

end Furby
